import Mathlib

/-!
Verification of the harborpi telemetry core: a shallow embedding of the
acquisition pipeline (`harborpi/core/acquisition.py`), the storage layer
(`harborpi/core/database.py`) and the logbook state interpreter
(`harborpi/core/interpreter.py`), together with theorems settling the
behavioural claims about window-averaged speed, hysteresis transitions,
hold states, fault handling and insert semantics.

SQLite REAL values are modelled as rationals (ℚ), timestamps as integers.
Nullable columns are `Option`-valued.  Each SQL query issued by the source
is embedded as a Lean function over a list-of-rows table with the query's
SQLite semantics (e.g. `AVG` ignores NULLs and returns NULL on an empty
aggregate).  Fallible sqlite3 calls are modelled with an explicit fault-
injection record: a flag set means the corresponding call raises
`sqlite3.Error`, which the source catches.
-/

namespace HarborPi

/-- One row of the `samples` table (schema `SCHEMA_SAMPLES` in
`database.py`): `ts_utc INTEGER PRIMARY KEY NOT NULL`, every other column
a nullable REAL. -/
structure Sample where
  ts_utc : Int
  lat : Option ℚ := none
  lon : Option ℚ := none
  speed_kn : Option ℚ := none
  course_deg : Option ℚ := none
  heading_mag : Option ℚ := none
  pressure_hpa : Option ℚ := none
  temp_c : Option ℚ := none
deriving Repr, DecidableEq

/-- One row of the `entries` table (schema `SCHEMA_ENTRIES` in
`database.py`), without the autoincrement surrogate id (the source never
reads it): `ts_utc` integer, `lat`/`lon` non-null REAL, `status` TEXT,
plus nullable annotation columns. -/
structure Entry where
  ts_utc : Int
  lat : ℚ
  lon : ℚ
  status : String
  place_name : Option String := none
  wx_json : Option String := none
  notes : Option String := none
deriving Repr, DecidableEq

/-- `STATUS_ANCHORED` constant from `interpreter.py`. -/
def STATUS_ANCHORED : String := "anchored"

/-- `STATUS_UNDERWAY` constant from `interpreter.py`. -/
def STATUS_UNDERWAY : String := "underway"

/-- Configuration values used by the interpreter (`utils/config.py`):
`ANCHOR_SPEED_KN` and `ANCHOR_MINUTES`. -/
structure Config where
  ANCHOR_SPEED_KN : ℚ
  ANCHOR_MINUTES : Int
deriving Repr, DecidableEq

/-- The defaults from `utils/config.py`: `ANCHOR_SPEED_KN = 0.5`,
`ANCHOR_MINUTES = 15`. -/
def refConfig : Config := { ANCHOR_SPEED_KN := 1/2, ANCHOR_MINUTES := 15 }

/-- Fault injection for the sqlite3 calls made during one interpreter
tick; a `true` flag means that call raises `sqlite3.Error`. -/
structure DbFaults where
  lastEntryFails : Bool := false
  avgFails : Bool := false
  latestSampleFails : Bool := false
  insertFails : Bool := false
deriving Repr, DecidableEq

/-- The fault-free database. -/
def noFaults : DbFaults := {}

/-- `ORDER BY ts_utc DESC LIMIT 1` over a row list: the row with the
maximal timestamp, or `none` on an empty list.  (On reachable tables the
interpreter's two such queries cannot see timestamp ties: `ts_utc` is
UNIQUE in `entries` and the primary key of `samples`.) -/
def maxByTs {α : Type} (ts : α → Int) (l : List α) : Option α :=
  l.foldl
    (fun acc x =>
      match acc with
      | none => some x
      | some b => if ts b < ts x then some x else some b)
    none

/-- `SELECT * FROM entries ORDER BY ts_utc DESC LIMIT 1`. -/
def lastEntryRow (entries : List Entry) : Option Entry :=
  maxByTs Entry.ts_utc entries

/-- `LogbookInterpreter._get_last_entry`: runs the latest-entry query and
returns `None` both when the table is empty and when the query raises
`sqlite3.Error` (the error is logged and swallowed). -/
def get_last_entry (f : DbFaults) (entries : List Entry) : Option Entry :=
  if f.lastEntryFails then none else lastEntryRow entries

/-- `SELECT AVG(speed_kn) FROM samples WHERE ts_utc >= w` with SQLite
`AVG` semantics: rows in the window whose `speed_kn` is NULL are ignored
by the aggregate, and the aggregate is NULL when no non-NULL value
remains (in particular when the window is empty). -/
def avgSpeedSince (samples : List Sample) (w : Int) : Option ℚ :=
  let speeds := (samples.filter (fun s => w ≤ s.ts_utc)).filterMap Sample.speed_kn
  if speeds.isEmpty then none else some (speeds.sum / speeds.length)

/-- Whether a sample has a position: `lat IS NOT NULL AND lon IS NOT NULL`. -/
def hasPosition (s : Sample) : Bool :=
  s.lat.isSome && s.lon.isSome

/-- `SELECT * FROM samples WHERE lat IS NOT NULL AND lon IS NOT NULL
ORDER BY ts_utc DESC LIMIT 1` (ties impossible: `ts_utc` is the primary
key on reachable tables). -/
def latestPositionedRow (samples : List Sample) : Option Sample :=
  maxByTs Sample.ts_utc (samples.filter hasPosition)

/-- `LogbookInterpreter._get_latest_sample`: the positioned-row query,
returning `None` on `sqlite3.Error` as well as on an empty result. -/
def get_latest_sample (f : DbFaults) (samples : List Sample) : Option Sample :=
  if f.latestSampleFails then none else latestPositionedRow samples

/-- `LogbookInterpreter._create_entry`: INSERT one row into `entries`
and commit; on `sqlite3.Error` the transaction is rolled back, so the
table is unchanged. -/
def create_entry (f : DbFaults) (entries : List Entry) (status : String)
    (ts_utc : Int) (lat lon : ℚ) : List Entry :=
  if f.insertFails then entries
  else entries ++ [{ ts_utc := ts_utc, lat := lat, lon := lon, status := status }]

/-- The `last_status` local of `run_job`: the status of the most recent
entry, defaulting to `underway` when `_get_last_entry` returned `None`
(which the source cannot tell apart from an empty table, since
`_get_last_entry` also returns `None` on a read error). -/
def lastStatus (f : DbFaults) (entries : List Entry) : String :=
  match get_last_entry f entries with
  | some e => e.status
  | none => STATUS_UNDERWAY

/-- `LogbookInterpreter.run_job`, one tick of the state interpreter.
`now` is `int(time.time())`.  Returns the `entries` table after the tick
(the `samples` table is never written by the interpreter).  Mirrors the
source control flow: derive `last_status` from `_get_last_entry`
(bootstrap `underway` when that returns `None`), query the window
average ending now, abort on query error, skip when the aggregate is
NULL, then run the two-threshold state machine, fetching the latest
positioned sample before inserting a transition entry. -/
def run_job (f : DbFaults) (cfg : Config) (now : Int)
    (samples : List Sample) (entries : List Entry) : List Entry :=
  let last_status := lastStatus f entries
  let window_start_ts := now - cfg.ANCHOR_MINUTES * 60
  if f.avgFails then entries
  else
    match avgSpeedSince samples window_start_ts with
    | none => entries
    | some avg_speed_kn =>
      if last_status = STATUS_UNDERWAY then
        if avg_speed_kn < cfg.ANCHOR_SPEED_KN then
          match get_latest_sample f samples with
          | some s =>
            create_entry f entries STATUS_ANCHORED now (s.lat.getD 0) (s.lon.getD 0)
          | none => entries
        else entries
      else if last_status = STATUS_ANCHORED then
        if avg_speed_kn > cfg.ANCHOR_SPEED_KN + 1/2 then
          match get_latest_sample f samples with
          | some s =>
            create_entry f entries STATUS_UNDERWAY now (s.lat.getD 0) (s.lon.getD 0)
          | none => entries
        else entries
      else entries

/-! ## Acquisition pipeline (`acquisition.py`)

The sample-insert path works on Python dicts, so this part of the model
is dict-level: a payload is an association list from string keys to
optional SQLite values (`None` in Python is `none` here), and a stored
`samples` row is the association list of columns actually written. -/

/-- A SQLite value carried in a payload or a stored row. -/
inductive PVal where
  | i (n : Int)
  | r (q : ℚ)
  | s (t : String)
deriving Repr, DecidableEq

/-- A Python dict as passed to `_insert_sample`: keys map to a value or
to Python `None`. -/
abbrev Payload := List (String × Option PVal)

/-- Dict lookup: `some v` when the key is present with value `v`
(itself `none` for Python `None`), `none` when the key is absent. -/
def lookupKey (data : Payload) (k : String) : Option (Option PVal) :=
  (data.find? (fun kv => kv.1 = k)).map Prod.snd

/-- Dict assignment `data[k] = v`: replace the first binding of `k`, or
append one when absent. -/
def dictSet (data : Payload) (k : String) (v : Option PVal) : Payload :=
  if data.any (fun kv => kv.1 = k) then
    data.map (fun kv => if kv.1 = k then (k, v) else kv)
  else data ++ [(k, v)]

/-- `VALID_SAMPLE_COLUMNS` from `acquisition.py`. -/
def VALID_SAMPLE_COLUMNS : List String :=
  ["ts_utc", "lat", "lon", "speed_kn", "course_deg",
   "heading_mag", "pressure_hpa", "temp_c"]

/-- The `sql_data` dict comprehension in `_insert_sample`: keep exactly
the allow-listed keys that are present and non-`None` in the payload
(iteration order follows `VALID_SAMPLE_COLUMNS`). -/
def sqlData (data : Payload) : List (String × PVal) :=
  VALID_SAMPLE_COLUMNS.filterMap
    (fun k =>
      match lookupKey data k with
      | some (some v) => some (k, v)
      | _ => none)

/-- A stored `samples` row at dict level: the columns written and their
values. -/
abbrev SqlRow := List (String × PVal)

/-- The value of column `k` in a stored row. -/
def rowVal (row : SqlRow) (k : String) : Option PVal :=
  (row.find? (fun kv => kv.1 = k)).map Prod.snd

/-- The row's `ts_utc` (the table's primary key). -/
def rowTs (row : SqlRow) : Option PVal :=
  rowVal row "ts_utc"

/-- `INSERT OR IGNORE INTO samples ...`: with `ts_utc` as primary key,
the insert silently no-ops when a stored row already has the same
`ts_utc`, and appends the row otherwise. -/
def insertOrIgnoreRow (tbl : List SqlRow) (row : SqlRow) : List SqlRow :=
  if tbl.any (fun r => rowTs r = rowTs row) then tbl else tbl ++ [row]

/-- `_insert_sample(db_conn, data)`: filter the payload through the
allow-list, refuse (log and return) when `ts_utc` did not survive the
filter, then run the INSERT OR IGNORE; a `sqlite3.Error` during the
write (`dbFail = true`) is caught, logged, and rolled back, leaving the
table unchanged.  The function never raises. -/
def insert_sample (dbFail : Bool) (tbl : List SqlRow) (data : Payload) : List SqlRow :=
  let sql_data := sqlData data
  if (sql_data.find? (fun kv => kv.1 = "ts_utc")).isNone then tbl
  else if dbFail then tbl
  else insertOrIgnoreRow tbl sql_data

/-! ### Telemetry reader (`GpsSerialSensor.read`) -/

/-- Outcome of `pynmea2.parse` on one non-empty line, abstracting the
third-party NMEA decoder: a parse failure, an RMC sentence with its
status flag and fields, or any other sentence type. -/
inductive NmeaOutcome where
  | failed
  | rmc (status : String) (latitude longitude spd_over_grnd true_course : Option ℚ)
  | other
deriving Repr, DecidableEq

/-- One serial read as seen by `GpsSerialSensor.read`: a timeout (empty
line), a line with its parse outcome, or a `serial.SerialException`
raised by the transport. -/
inductive ReadEvent where
  | emptyLine
  | line (msg : NmeaOutcome)
  | serialFault
deriving Repr, DecidableEq

/-- The navigation dict returned by `GpsSerialSensor.read` for an
active-fix RMC sentence. -/
structure Fix where
  lat : Option ℚ
  lon : Option ℚ
  speed_kn : Option ℚ
  course_deg : Option ℚ
deriving Repr, DecidableEq

/-- `GpsSerialSensor.read`: `None` on timeout, on a non-RMC sentence, on
a void fix, on a parse error, or on a serial fault (which the source
handles by closing, cooling down and reopening — all invisible to the
caller beyond the `None`).  Returns the navigation dict only for an RMC
sentence whose status flag is `"A"`. -/
def GpsSerialSensor.read (ev : ReadEvent) : Option Fix :=
  match ev with
  | .emptyLine => none
  | .serialFault => none
  | .line .failed => none
  | .line .other => none
  | .line (.rmc status lat lon spd crs) =>
    if status = "A" then some ⟨lat, lon, spd, crs⟩ else none

/-- The dict literal built in `GpsSerialSensor.read` for an active fix. -/
def Fix.toPayload (fx : Fix) : Payload :=
  [("lat", fx.lat.map PVal.r), ("lon", fx.lon.map PVal.r),
   ("speed_kn", fx.speed_kn.map PVal.r), ("course_deg", fx.course_deg.map PVal.r)]

/-! ### Acquisition loop (`run_acquisition_loop`) -/

/-- What one iteration body does when entered: either `sensor.read()`
returns (with some serial event), or the body raises an exception
(`raised`) that only the loop's catch-all handler sees. -/
inductive IterEvent where
  | read (ev : ReadEvent)
  | raised (msg : String)
deriving Repr, DecidableEq

/-- The environment of one loop iteration: the shutdown flag sampled at
the `while` condition, the wall clock used to stamp the sample, the
body's event, whether the sample INSERT raises `sqlite3.Error`, and
whether the shutdown signal arrives during this iteration's
`stop_event.wait` (sleep or error cooldown). -/
structure IterInput where
  stopAtHead : Bool
  now : Int
  ev : IterEvent
  dbFail : Bool
  stopDuringWait : Bool
deriving Repr, DecidableEq

/-- Observable actions of the loop, for stating the fault contract. -/
inductive LoopAct where
  | sampleWrite
  | criticalLog (msg : String)
  | cooldownWait (secs : Nat)
deriving Repr, DecidableEq

/-- Result of running the loop on a finite iteration trace: the final
`samples` table, the action trace, and how many iteration bodies were
entered before the loop returned. -/
structure LoopResult where
  tbl : List SqlRow
  acts : List LoopAct
  iters : Nat
deriving Repr, DecidableEq

/-- `run_acquisition_loop` after successful initialization, on a finite
trace of iteration environments.  Mirrors the source: test the shutdown
flag; run the body (read one fix; if present, stamp `ts_utc` with the
current time and `_insert_sample` it); wait out the rest of the 1 s
period, breaking if the shutdown signal is set; any exception from the
body is caught by the catch-all handler, logged critical, followed by a
5 s cooldown wait (breaking if shutdown arrives during it), and the loop
continues. -/
def runAcqLoop (inputs : List IterInput) (tbl : List SqlRow) : LoopResult :=
  match inputs with
  | [] => ⟨tbl, [], 0⟩
  | inp :: rest =>
    if inp.stopAtHead then ⟨tbl, [], 0⟩
    else
      match inp.ev with
      | .raised m =>
        if inp.stopDuringWait then ⟨tbl, [.criticalLog m, .cooldownWait 5], 1⟩
        else
          let r := runAcqLoop rest tbl
          ⟨r.tbl, .criticalLog m :: .cooldownWait 5 :: r.acts, r.iters + 1⟩
      | .read ev =>
        let step :=
          match GpsSerialSensor.read ev with
          | some fx =>
            (insert_sample inp.dbFail tbl
              (dictSet fx.toPayload "ts_utc" (some (.i inp.now))), [LoopAct.sampleWrite])
          | none => (tbl, [])
        if inp.stopDuringWait then ⟨step.1, step.2, 1⟩
        else
          let r := runAcqLoop rest step.1
          ⟨r.tbl, step.2 ++ r.acts, r.iters + 1⟩

/-! ### Concrete data used to instantiate the theorems below -/

/-- An `entries` table whose latest (only) entry is `underway`. -/
def wUnderway : List Entry := [⟨100, 1, 2, "underway", none, none, none⟩]

/-- An `entries` table whose latest (only) entry is `anchored`. -/
def wAnchored : List Entry := [⟨100, 1, 2, "anchored", none, none, none⟩]

/-- An `entries` table whose latest (only) entry is `docked`. -/
def wDocked : List Entry := [⟨100, 1, 2, "docked", none, none, none⟩]

/-- One positioned sample at t=950 with speed 0.4 kn. -/
def wSamples04 : List Sample := [⟨950, some 3, some 4, some (2/5), none, none, none, none⟩]

/-- One positioned sample at t=950 with speed 0.9 kn. -/
def wSamples09 : List Sample := [⟨950, some 3, some 4, some (9/10), none, none, none, none⟩]

/-- One positioned sample at t=950 with speed 1.1 kn. -/
def wSamples11 : List Sample := [⟨950, some 3, some 4, some (11/10), none, none, none, none⟩]

/-- One positioned sample at t=950 whose `speed_kn` is NULL. -/
def wSamplesNull : List Sample := [⟨950, some 3, some 4, none, none, none, none, none⟩]

/-- A stored `samples` row with `ts_utc = 50`, `lat = 1`. -/
def wRow : SqlRow := [("ts_utc", .i 50), ("lat", .r 1)]

/-- A one-row `samples` table holding `wRow`. -/
def wTbl : List SqlRow := [wRow]

/-- A payload with the duplicate timestamp 50, a different `lat`, and an
unknown field. -/
def wDupPayload : Payload :=
  [("ts_utc", some (.i 50)), ("lat", some (.r 9)), ("junk", some (.s "x"))]

/-- A two-iteration loop trace: the first body raises, the second reads
a timeout, no shutdown signal. -/
def wLoopInputs : List IterInput :=
  [⟨false, 10, .raised "boom", false, false⟩,
   ⟨false, 11, .read .emptyLine, false, false⟩]

/-! ## Helper lemmas -/

theorem foldl_maxStep_mem {α : Type} (ts : α → Int) (l : List α) :
    ∀ (acc : Option α) (x : α),
      l.foldl (fun acc x =>
        match acc with
        | none => some x
        | some b => if ts b < ts x then some x else some b) acc = some x →
      x ∈ l ∨ acc = some x := by
  induction l with
  | nil => intro acc x h; exact Or.inr h
  | cons a t ih =>
    intro acc x h
    rcases ih _ x h with h1 | h2
    · exact Or.inl (List.mem_cons_of_mem _ h1)
    · cases acc with
      | none =>
        simp only [Option.some.injEq] at h2
        exact Or.inl (h2 ▸ List.mem_cons_self a t)
      | some b =>
        by_cases hlt : ts b < ts a
        · simp only [hlt, if_true, Option.some.injEq] at h2
          exact Or.inl (h2 ▸ List.mem_cons_self a t)
        · simp only [hlt, if_false] at h2
          exact Or.inr h2

theorem foldl_maxStep_le {α : Type} (ts : α → Int) (l : List α) :
    ∀ (acc : Option α) (x : α),
      l.foldl (fun acc x =>
        match acc with
        | none => some x
        | some b => if ts b < ts x then some x else some b) acc = some x →
      (∀ y ∈ l, ts y ≤ ts x) ∧ (∀ b, acc = some b → ts b ≤ ts x) := by
  induction l with
  | nil =>
    intro acc x h
    refine ⟨by simp, ?_⟩
    intro b hb
    rw [hb] at h
    simp only [List.foldl_nil, Option.some.injEq] at h
    exact le_of_eq (congrArg ts h)
  | cons a t ih =>
    intro acc x h
    obtain ⟨hT, hAcc⟩ := ih _ x h
    have hstep : ∀ c, (match acc with
        | none => some a
        | some b => if ts b < ts a then some a else some b) = some c → ts c ≤ ts x := by
      intro c hc
      exact hAcc c hc
    have hA : ts a ≤ ts x := by
      cases acc with
      | none => exact hstep a rfl
      | some b =>
        by_cases hlt : ts b < ts a
        · exact hstep a (by simp [hlt])
        · exact le_trans (le_of_not_lt hlt) (hstep b (by simp [hlt]))
    refine ⟨?_, ?_⟩
    · intro y hy
      rcases List.mem_cons.mp hy with rfl | hyt
      · exact hA
      · exact hT y hyt
    · intro b hb
      cases acc with
      | none => cases hb
      | some c =>
        cases hb
        by_cases hlt : ts b < ts a
        · exact le_trans (le_of_lt hlt) hA
        · exact hstep b (by simp [hlt])

theorem maxByTs_mem {α : Type} (ts : α → Int) (l : List α) (x : α)
    (h : maxByTs ts l = some x) : x ∈ l := by
  rcases foldl_maxStep_mem ts l none x h with h1 | h2
  · exact h1
  · cases h2

theorem maxByTs_le {α : Type} (ts : α → Int) (l : List α) (x : α)
    (h : maxByTs ts l = some x) : ∀ y ∈ l, ts y ≤ ts x :=
  (foldl_maxStep_le ts l none x h).1

theorem maxByTs_nil_iff {α : Type} (ts : α → Int) (l : List α) :
    maxByTs ts l = none ↔ l = [] := by
  constructor
  · intro h
    cases l with
    | nil => rfl
    | cons a t =>
      exfalso
      have hsome : ∀ (t : List α) (acc : α),
          (t.foldl (fun acc x =>
            match acc with
            | none => some x
            | some b => if ts b < ts x then some x else some b) (some acc)).isSome := by
        intro t
        induction t with
        | nil => intro acc; rfl
        | cons c u ih =>
          intro acc
          by_cases hlt : ts acc < ts c
          · simpa [hlt] using ih c
          · simpa [hlt] using ih acc
      have := hsome t a
      rw [show (t.foldl (fun acc x =>
            match acc with
            | none => some x
            | some b => if ts b < ts x then some x else some b) (some a)) =
          maxByTs ts (a :: t) from rfl] at this
      rw [h] at this
      cases this
  · intro h
    rw [h]
    rfl

theorem lastStatus_noFaults (entries : List Entry) (e : Entry)
    (hE : lastEntryRow entries = some e) :
    lastStatus noFaults entries = e.status := by
  simp [lastStatus, get_last_entry, noFaults, hE]

theorem run_job_noFaults_some (cfg : Config) (now : Int)
    (samples : List Sample) (entries : List Entry) (e : Entry) (avg : ℚ)
    (hE : lastEntryRow entries = some e)
    (hA : avgSpeedSince samples (now - cfg.ANCHOR_MINUTES * 60) = some avg) :
    run_job noFaults cfg now samples entries =
      (if e.status = STATUS_UNDERWAY then
        if avg < cfg.ANCHOR_SPEED_KN then
          match latestPositionedRow samples with
          | some s => entries ++ [{ ts_utc := now, lat := s.lat.getD 0,
                                    lon := s.lon.getD 0, status := STATUS_ANCHORED }]
          | none => entries
        else entries
      else if e.status = STATUS_ANCHORED then
        if cfg.ANCHOR_SPEED_KN + 1/2 < avg then
          match latestPositionedRow samples with
          | some s => entries ++ [{ ts_utc := now, lat := s.lat.getD 0,
                                    lon := s.lon.getD 0, status := STATUS_UNDERWAY }]
          | none => entries
        else entries
      else entries) := by
  have h0 : run_job noFaults cfg now samples entries =
      (match avgSpeedSince samples (now - cfg.ANCHOR_MINUTES * 60) with
       | none => entries
       | some avg =>
         if lastStatus noFaults entries = STATUS_UNDERWAY then
           if avg < cfg.ANCHOR_SPEED_KN then
             match latestPositionedRow samples with
             | some s => entries ++ [{ ts_utc := now, lat := s.lat.getD 0,
                                       lon := s.lon.getD 0, status := STATUS_ANCHORED }]
             | none => entries
           else entries
         else if lastStatus noFaults entries = STATUS_ANCHORED then
           if cfg.ANCHOR_SPEED_KN + 1/2 < avg then
             match latestPositionedRow samples with
             | some s => entries ++ [{ ts_utc := now, lat := s.lat.getD 0,
                                       lon := s.lon.getD 0, status := STATUS_UNDERWAY }]
             | none => entries
           else entries
         else entries) := rfl
  rw [h0, hA, lastStatus_noFaults entries e hE]

theorem run_job_skip_of_avg_none (f : DbFaults) (cfg : Config) (now : Int)
    (samples : List Sample) (entries : List Entry)
    (h : avgSpeedSince samples (now - cfg.ANCHOR_MINUTES * 60) = none) :
    run_job f cfg now samples entries = entries := by
  simp only [run_job, h]
  split <;> rfl

theorem run_job_cases (f : DbFaults) (cfg : Config) (now : Int)
    (samples : List Sample) (entries : List Entry) :
    run_job f cfg now samples entries = entries ∨
    (f.avgFails = false ∧ f.latestSampleFails = false ∧ f.insertFails = false ∧
      ∃ s avg, latestPositionedRow samples = some s ∧
        avgSpeedSince samples (now - cfg.ANCHOR_MINUTES * 60) = some avg ∧
        ((lastStatus f entries = STATUS_UNDERWAY ∧ avg < cfg.ANCHOR_SPEED_KN ∧
          run_job f cfg now samples entries =
            entries ++ [{ ts_utc := now, lat := s.lat.getD 0, lon := s.lon.getD 0,
                          status := STATUS_ANCHORED }]) ∨
         (lastStatus f entries = STATUS_ANCHORED ∧ cfg.ANCHOR_SPEED_KN + 1/2 < avg ∧
          run_job f cfg now samples entries =
            entries ++ [{ ts_utc := now, lat := s.lat.getD 0, lon := s.lon.getD 0,
                          status := STATUS_UNDERWAY }]))) := by
  by_cases hAvgF : f.avgFails = true
  · left; simp [run_job, hAvgF]
  · have hAvgF' : f.avgFails = false := by simpa using hAvgF
    rcases hAvg : avgSpeedSince samples (now - cfg.ANCHOR_MINUTES * 60) with _ | avg
    · left; exact run_job_skip_of_avg_none f cfg now samples entries hAvg
    · by_cases hU : lastStatus f entries = STATUS_UNDERWAY
      · by_cases hLt : avg < cfg.ANCHOR_SPEED_KN
        · rcases hLS : get_latest_sample f samples with _ | s
          · left; simp [run_job, hAvgF', hAvg, hU, hLt, hLS]
          · by_cases hIns : f.insertFails = true
            · left; simp [run_job, create_entry, hAvgF', hAvg, hU, hLt, hLS, hIns]
            · have hIns' : f.insertFails = false := by simpa using hIns
              have hSampF : f.latestSampleFails = false := by
                by_contra hc
                have hc' : f.latestSampleFails = true := by simpa using hc
                simp [get_latest_sample, hc'] at hLS
              right
              refine ⟨hAvgF', hSampF, hIns', s, avg, ?_, rfl, Or.inl ⟨hU, hLt, ?_⟩⟩
              · simpa [get_latest_sample, hSampF] using hLS
              · simp [run_job, create_entry, hAvgF', hAvg, hU, hLt, hLS, hIns']
        · left; simp [run_job, hAvgF', hAvg, hU, hLt]
      · by_cases hAn : lastStatus f entries = STATUS_ANCHORED
        · by_cases hLt : cfg.ANCHOR_SPEED_KN + 1/2 < avg
          · have hLt' : cfg.ANCHOR_SPEED_KN + 2⁻¹ < avg := by
              rw [show ((2 : ℚ)⁻¹ : ℚ) = 1/2 by norm_num]; exact hLt
            rcases hLS : get_latest_sample f samples with _ | s
            · left; simp [run_job, hAvgF', hAvg, hU, hAn, hLt', hLS, STATUS_ANCHORED, STATUS_UNDERWAY]
            · by_cases hIns : f.insertFails = true
              · left; simp [run_job, create_entry, hAvgF', hAvg, hU, hAn, hLt', hLS, hIns,
                  STATUS_ANCHORED, STATUS_UNDERWAY]
              · have hIns' : f.insertFails = false := by simpa using hIns
                have hSampF : f.latestSampleFails = false := by
                  by_contra hc
                  have hc' : f.latestSampleFails = true := by simpa using hc
                  simp [get_latest_sample, hc'] at hLS
                right
                refine ⟨hAvgF', hSampF, hIns', s, avg, ?_, rfl, Or.inr ⟨hAn, hLt, ?_⟩⟩
                · simpa [get_latest_sample, hSampF] using hLS
                · simp [run_job, create_entry, hAvgF', hAvg, hU, hAn, hLt', hLS, hIns',
                    STATUS_ANCHORED, STATUS_UNDERWAY]
          · have hLt' : ¬ cfg.ANCHOR_SPEED_KN + 2⁻¹ < avg := by
              rw [show ((2 : ℚ)⁻¹ : ℚ) = 1/2 by norm_num]; exact hLt
            left; simp [run_job, hAvgF', hAvg, hU, hAn, hLt', STATUS_ANCHORED, STATUS_UNDERWAY]
        · left; simp [run_job, hAvgF', hAvg, hU, hAn]

theorem filterMap_speed_eq_map {l : List Sample}
    (h : ∀ s ∈ l, s.speed_kn.isSome = true) :
    l.filterMap Sample.speed_kn = l.map (fun s => s.speed_kn.getD 0) := by
  induction l with
  | nil => rfl
  | cons a t ih =>
    have ha := h a (List.mem_cons_self a t)
    rcases hsp : a.speed_kn with _ | v
    · rw [hsp] at ha; cases ha
    · simp [List.filterMap_cons, List.map_cons, hsp,
        ih (fun s hs => h s (List.mem_cons_of_mem a hs))]

theorem filterMap_speed_and (w : Int) (l : List Sample) :
    (l.filter (fun s => decide (w ≤ s.ts_utc) && s.speed_kn.isSome)).filterMap
        Sample.speed_kn =
      (l.filter (fun s => w ≤ s.ts_utc)).filterMap Sample.speed_kn := by
  induction l with
  | nil => rfl
  | cons a t ih =>
    by_cases h2 : w ≤ a.ts_utc
    · rcases hsp : a.speed_kn with _ | v
      · simp [List.filter_cons, List.filterMap_cons, hsp, h2, ih]
      · simp [List.filter_cons, List.filterMap_cons, hsp, h2, ih]
    · simp [List.filter_cons, h2, ih]

theorem speeds_restrict (w : Int) (l : List Sample) :
    ((l.filter (fun s => s.speed_kn.isSome)).filter (fun s => w ≤ s.ts_utc)).filterMap
        Sample.speed_kn =
      (l.filter (fun s => w ≤ s.ts_utc)).filterMap Sample.speed_kn := by
  rw [List.filter_filter]
  exact filterMap_speed_and w l

theorem filter_rowTs_unique :
    ∀ (tbl : List SqlRow) (r0 : SqlRow) (t : PVal),
      tbl.Pairwise (fun a b => rowTs a ≠ rowTs b) → r0 ∈ tbl → rowTs r0 = some t →
      tbl.filter (fun r => rowTs r = some t) = [r0] := by
  intro tbl
  induction tbl with
  | nil => intro r0 t _ hmem; cases hmem
  | cons a rest ih =>
    intro r0 t hpw hmem hr0
    obtain ⟨ha, hpw'⟩ := List.pairwise_cons.mp hpw
    rcases List.mem_cons.mp hmem with rfl | hmem'
    · have hrest : rest.filter (fun r => rowTs r = some t) = [] := by
        apply List.filter_eq_nil_iff.mpr
        intro b hb
        have hne := ha b hb
        rw [hr0] at hne
        simp only [decide_eq_true_eq]
        exact fun hc => hne hc.symm
      simp [List.filter_cons, hr0, hrest]
    · have hneq : rowTs a ≠ some t := by
        have := ha r0 hmem'
        rw [hr0] at this
        exact this
      simp [List.filter_cons, hneq, ih r0 t hpw' hmem' hr0]

theorem runAcqLoop_iters_noStop :
    ∀ (inputs : List IterInput) (tbl : List SqlRow),
      (∀ inp ∈ inputs, inp.stopAtHead = false ∧ inp.stopDuringWait = false) →
      (runAcqLoop inputs tbl).iters = inputs.length := by
  intro inputs
  induction inputs with
  | nil => intro tbl _; rfl
  | cons inp rest ih =>
    intro tbl h
    obtain ⟨h1, h2⟩ := h inp (List.mem_cons_self inp rest)
    have hrest := fun i hi => h i (List.mem_cons_of_mem inp hi)
    rcases hev : inp.ev with ev | m
    · simp [runAcqLoop, h1, h2, hev, ih _ hrest]
    · simp [runAcqLoop, h1, h2, hev, ih _ hrest]

/-! ## Claim theorems -/

/-- C1: on a fault-free tick with a known window average and a positioned
sample available, a latest entry with status `underway` yields a new
`anchored` entry exactly when the average is strictly below
`ANCHOR_SPEED_KN`, and a latest entry with status `anchored` yields a new
`underway` entry exactly when the average is strictly above
`ANCHOR_SPEED_KN + 0.5`. -/
theorem C1_hysteresis (cfg : Config) (now : Int)
    (samples : List Sample) (entries : List Entry) (e : Entry) (s : Sample) (avg : ℚ)
    (hE : lastEntryRow entries = some e)
    (hA : avgSpeedSince samples (now - cfg.ANCHOR_MINUTES * 60) = some avg)
    (hS : latestPositionedRow samples = some s) :
    (e.status = STATUS_UNDERWAY →
      (run_job noFaults cfg now samples entries =
          entries ++ [{ ts_utc := now, lat := s.lat.getD 0, lon := s.lon.getD 0,
                        status := STATUS_ANCHORED }] ↔
        avg < cfg.ANCHOR_SPEED_KN)) ∧
    (e.status = STATUS_ANCHORED →
      (run_job noFaults cfg now samples entries =
          entries ++ [{ ts_utc := now, lat := s.lat.getD 0, lon := s.lon.getD 0,
                        status := STATUS_UNDERWAY }] ↔
        cfg.ANCHOR_SPEED_KN + 1/2 < avg)) := by
  rw [run_job_noFaults_some cfg now samples entries e avg hE hA, hS]
  constructor
  · intro hU
    rw [hU]
    by_cases h : avg < cfg.ANCHOR_SPEED_KN
    · simp [h, STATUS_UNDERWAY]
    · simp [h, STATUS_UNDERWAY]
  · intro hAnch
    rw [hAnch]
    by_cases h : cfg.ANCHOR_SPEED_KN + 1/2 < avg
    · simp [h, STATUS_ANCHORED, STATUS_UNDERWAY]
    · simp [h, STATUS_ANCHORED, STATUS_UNDERWAY]

/-- C1 witness: with the reference config (threshold 0.5 kn), a 0.4 kn
average while `underway` appends an `anchored` entry; a 0.9 kn average
while `anchored` appends nothing; a 1.1 kn average while `anchored`
appends an `underway` entry. -/
theorem C1_hysteresis_witness :
    (run_job noFaults refConfig 1000 wSamples04 wUnderway =
      wUnderway ++ [{ ts_utc := 1000, lat := 3, lon := 4, status := STATUS_ANCHORED }]) ∧
    ¬ (run_job noFaults refConfig 1000 wSamples09 wAnchored =
      wAnchored ++ [{ ts_utc := 1000, lat := 3, lon := 4, status := STATUS_UNDERWAY }]) ∧
    (run_job noFaults refConfig 1000 wSamples11 wAnchored =
      wAnchored ++ [{ ts_utc := 1000, lat := 3, lon := 4, status := STATUS_UNDERWAY }]) := by
  refine ⟨?_, ?_, ?_⟩
  · exact ((C1_hysteresis refConfig 1000 wSamples04 wUnderway
      ⟨100, 1, 2, "underway", none, none, none⟩
      ⟨950, some 3, some 4, some (2/5), none, none, none, none⟩ (2/5)
      rfl (by simp [avgSpeedSince, wSamples04, refConfig]) rfl).1 rfl).mpr
      (by norm_num [refConfig])
  · intro hcontra
    have := ((C1_hysteresis refConfig 1000 wSamples09 wAnchored
      ⟨100, 1, 2, "anchored", none, none, none⟩
      ⟨950, some 3, some 4, some (9/10), none, none, none, none⟩ (9/10)
      rfl (by simp [avgSpeedSince, wSamples09, refConfig]) rfl).2 rfl).mp hcontra
    norm_num [refConfig] at this
  · exact ((C1_hysteresis refConfig 1000 wSamples11 wAnchored
      ⟨100, 1, 2, "anchored", none, none, none⟩
      ⟨950, some 3, some 4, some (11/10), none, none, none, none⟩ (11/10)
      rfl (by simp [avgSpeedSince, wSamples11, refConfig]) rfl).2 rfl).mpr
      (by norm_num [refConfig])

/-- C2 counterexample: with a `docked` latest entry, a slow positioned
sample in the window, and the most-recent-entry read raising
`sqlite3.Error`, the tick does NOT abort: it falls back to the bootstrap
`underway` status and writes a spurious `anchored` entry. -/
theorem C2_counterexample :
    run_job ⟨true, false, false, false⟩ refConfig 1000 wSamples04 wDocked =
      wDocked ++ [{ ts_utc := 1000, lat := 3, lon := 4, status := STATUS_ANCHORED }] ∧
    run_job ⟨true, false, false, false⟩ refConfig 1000 wSamples04 wDocked ≠ wDocked := by
  have hAvg : avgSpeedSince wSamples04 (1000 - refConfig.ANCHOR_MINUTES * 60) =
      some (2/5) := by
    simp [avgSpeedSince, wSamples04, refConfig]
  have hlt : (2/5 : ℚ) < refConfig.ANCHOR_SPEED_KN := by norm_num [refConfig]
  have h0 : run_job ⟨true, false, false, false⟩ refConfig 1000 wSamples04 wDocked =
      (match avgSpeedSince wSamples04 (1000 - refConfig.ANCHOR_MINUTES * 60) with
       | none => wDocked
       | some avg =>
         if avg < refConfig.ANCHOR_SPEED_KN then
           wDocked ++ [{ ts_utc := 1000, lat := 3, lon := 4, status := STATUS_ANCHORED }]
         else wDocked) := rfl
  simp only [hAvg] at h0
  rw [if_pos hlt] at h0
  constructor
  · exact h0
  · rw [h0]
    simp [wDocked]

/-- C2 amended: a failure of the window-average query, the
latest-positioned-sample read, or the entry insert leaves the `entries`
table unchanged (the tick aborts cleanly, no exception escapes); but a
failure of the most-recent-entry read does not abort: the tick proceeds
under the bootstrap `underway` status and may append an `anchored`
entry. -/
theorem C2_faultContainment (f : DbFaults) (cfg : Config) (now : Int)
    (samples : List Sample) (entries : List Entry) :
    (f.avgFails = true → run_job f cfg now samples entries = entries) ∧
    (f.latestSampleFails = true → run_job f cfg now samples entries = entries) ∧
    (f.insertFails = true → run_job f cfg now samples entries = entries) ∧
    (f.lastEntryFails = true →
      run_job f cfg now samples entries = entries ∨
      ∃ s, latestPositionedRow samples = some s ∧
        run_job f cfg now samples entries =
          entries ++ [{ ts_utc := now, lat := s.lat.getD 0, lon := s.lon.getD 0,
                        status := STATUS_ANCHORED }]) := by
  refine ⟨?_, ?_, ?_, ?_⟩
  · intro h; simp [run_job, h]
  · intro h
    rcases run_job_cases f cfg now samples entries with h1 | ⟨_, hSampF, _, _⟩
    · exact h1
    · simp [h] at hSampF
  · intro h
    rcases run_job_cases f cfg now samples entries with h1 | ⟨_, _, hIns, _⟩
    · exact h1
    · simp [h] at hIns
  · intro h
    rcases run_job_cases f cfg now samples entries with h1 | ⟨_, _, _, s, avg, hS, hA, hcase⟩
    · exact Or.inl h1
    · rcases hcase with ⟨_, _, heq⟩ | ⟨hstat, _, _⟩
      · exact Or.inr ⟨s, hS, heq⟩
      · exfalso
        have hund : lastStatus f entries = STATUS_UNDERWAY := by
          simp [lastStatus, get_last_entry, h]
        rw [hund] at hstat
        exact absurd hstat (by simp [STATUS_UNDERWAY, STATUS_ANCHORED])

/-- C2 witness for the amended claim: a failing window-average query
leaves the entries table unchanged. -/
theorem C2_faultContainment_witness :
    run_job ⟨false, true, false, false⟩ refConfig 1000 wSamples04 wUnderway = wUnderway :=
  (C2_faultContainment ⟨false, true, false, false⟩ refConfig 1000 wSamples04 wUnderway).1 rfl

/-- C3: a latest entry in a hold state (`docked`, `manual`, `arrived`)
makes the fault-free tick a no-op on the entries table, and — under any
fault injection — the interpreter only ever appends entries, and only
with status `anchored` or `underway`. -/
theorem C3_holdStates (cfg : Config) (now : Int) (samples : List Sample)
    (entries : List Entry) :
    (∀ e, lastEntryRow entries = some e →
      e.status = "docked" ∨ e.status = "manual" ∨ e.status = "arrived" →
      run_job noFaults cfg now samples entries = entries) ∧
    (∀ f : DbFaults, ∃ tail, run_job f cfg now samples entries = entries ++ tail ∧
      ∀ x ∈ tail, x.status = STATUS_ANCHORED ∨ x.status = STATUS_UNDERWAY) := by
  constructor
  · intro e hE hHold
    rcases hAvg : avgSpeedSince samples (now - cfg.ANCHOR_MINUTES * 60) with _ | avg
    · exact run_job_skip_of_avg_none _ _ _ _ _ hAvg
    · rw [run_job_noFaults_some cfg now samples entries e avg hE hAvg]
      rcases hHold with h | h | h <;> simp [h, STATUS_UNDERWAY, STATUS_ANCHORED]
  · intro f
    rcases run_job_cases f cfg now samples entries with h1 | ⟨_, _, _, s, avg, _, _, hcase⟩
    · exact ⟨[], by simp [h1], by simp⟩
    · rcases hcase with ⟨_, _, heq⟩ | ⟨_, _, heq⟩
      · exact ⟨[{ ts_utc := now, lat := s.lat.getD 0, lon := s.lon.getD 0,
                  status := STATUS_ANCHORED }], heq, by simp⟩
      · exact ⟨[{ ts_utc := now, lat := s.lat.getD 0, lon := s.lon.getD 0,
                  status := STATUS_UNDERWAY }], heq, by simp⟩

/-- C3 witness: a `docked` latest entry with slow samples in the window
produces no new entry. -/
theorem C3_holdStates_witness :
    run_job noFaults refConfig 1000 wSamples04 wDocked = wDocked :=
  (C3_holdStates refConfig 1000 wSamples04 wDocked).1
    ⟨100, 1, 2, "docked", none, none, none⟩ rfl (Or.inl rfl)

/-- C4: when every sample in the trailing window carries a speed, the
interpreter's aggregate equals the arithmetic mean of `speed_kn` over
the window (whose bound depends only on `now` and `ANCHOR_MINUTES`, not
on the last entry); and when no sample falls in the window, the tick is
skipped with the entries table unchanged. -/
theorem C4_windowAverage (cfg : Config) (now : Int) (samples : List Sample)
    (entries : List Entry) :
    ((∀ s ∈ samples.filter (fun s => now - cfg.ANCHOR_MINUTES * 60 ≤ s.ts_utc),
        s.speed_kn.isSome = true) →
      samples.filter (fun s => now - cfg.ANCHOR_MINUTES * 60 ≤ s.ts_utc) ≠ [] →
      avgSpeedSince samples (now - cfg.ANCHOR_MINUTES * 60) =
        some (((samples.filter (fun s => now - cfg.ANCHOR_MINUTES * 60 ≤ s.ts_utc)).map
            (fun s => s.speed_kn.getD 0)).sum /
          (samples.filter (fun s => now - cfg.ANCHOR_MINUTES * 60 ≤ s.ts_utc)).length)) ∧
    (samples.filter (fun s => now - cfg.ANCHOR_MINUTES * 60 ≤ s.ts_utc) = [] →
      run_job noFaults cfg now samples entries = entries) := by
  constructor
  · intro hAll hNe
    simp only [avgSpeedSince]
    rw [filterMap_speed_eq_map hAll]
    have hie : ((samples.filter (fun s => now - cfg.ANCHOR_MINUTES * 60 ≤ s.ts_utc)).map
        (fun s => s.speed_kn.getD 0)).isEmpty = false := by
      cases hc : samples.filter (fun s => now - cfg.ANCHOR_MINUTES * 60 ≤ s.ts_utc) with
      | nil => exact absurd hc hNe
      | cons a t => rfl
    rw [hie]
    simp [List.length_map]
  · intro hNil
    apply run_job_skip_of_avg_none
    simp only [avgSpeedSince]
    rw [hNil]
    rfl

/-- C4 witness: the aggregate over one full-speed sample equals the
window mean, and an empty window skips the tick. -/
theorem C4_windowAverage_witness :
    avgSpeedSince wSamples04 (1000 - refConfig.ANCHOR_MINUTES * 60) =
      some (((wSamples04.filter
          (fun s => 1000 - refConfig.ANCHOR_MINUTES * 60 ≤ s.ts_utc)).map
          (fun s => s.speed_kn.getD 0)).sum /
        (wSamples04.filter
          (fun s => 1000 - refConfig.ANCHOR_MINUTES * 60 ≤ s.ts_utc)).length) ∧
    run_job noFaults refConfig 1000 [] wUnderway = wUnderway :=
  ⟨(C4_windowAverage refConfig 1000 wSamples04 wUnderway).1 (by decide) (by decide),
   (C4_windowAverage refConfig 1000 [] wUnderway).2 rfl⟩

/-- C10: samples whose `speed_kn` is NULL are invisible to the window
aggregate (the average over the table equals the average over the table
restricted to rows with a speed), and a window in which every sample has
NULL `speed_kn` skips the tick exactly like an empty window, even when
those samples are positioned. -/
theorem C10_nullSpeedExcluded (cfg : Config) (now : Int) (samples : List Sample)
    (entries : List Entry) :
    avgSpeedSince samples (now - cfg.ANCHOR_MINUTES * 60) =
      avgSpeedSince (samples.filter (fun s => s.speed_kn.isSome))
        (now - cfg.ANCHOR_MINUTES * 60) ∧
    ((∀ s ∈ samples.filter (fun s => now - cfg.ANCHOR_MINUTES * 60 ≤ s.ts_utc),
        s.speed_kn = none) →
      run_job noFaults cfg now samples entries = entries) := by
  constructor
  · simp only [avgSpeedSince]
    rw [speeds_restrict]
  · intro hAll
    apply run_job_skip_of_avg_none
    simp only [avgSpeedSince]
    have hsp : (samples.filter
        (fun s => now - cfg.ANCHOR_MINUTES * 60 ≤ s.ts_utc)).filterMap
        Sample.speed_kn = [] := List.filterMap_eq_nil_iff.mpr hAll
    rw [hsp]
    rfl

/-- C10 witness: a window holding one positioned sample with NULL speed
behaves like an empty window: the tick writes nothing. -/
theorem C10_nullSpeedExcluded_witness :
    avgSpeedSince wSamplesNull (1000 - refConfig.ANCHOR_MINUTES * 60) =
      avgSpeedSince (wSamplesNull.filter (fun s => s.speed_kn.isSome))
        (1000 - refConfig.ANCHOR_MINUTES * 60) ∧
    run_job noFaults refConfig 1000 wSamplesNull wUnderway = wUnderway :=
  ⟨(C10_nullSpeedExcluded refConfig 1000 wSamplesNull wUnderway).1,
   (C10_nullSpeedExcluded refConfig 1000 wSamplesNull wUnderway).2 (by decide)⟩

/-- C5: after successful initialization the acquisition loop never exits
because of an error: on a trace with no shutdown signal every iteration
is entered (exceptions included); an iteration whose body raises is
caught, logged at critical severity, followed by a 5-second cooldown
wait, and the loop continues on the same table; the loop returns
immediately exactly when the shutdown flag is set at the loop head. -/
theorem C5_loopNeverDies (inputs : List IterInput) (tbl : List SqlRow) :
    ((∀ inp ∈ inputs, inp.stopAtHead = false ∧ inp.stopDuringWait = false) →
      (runAcqLoop inputs tbl).iters = inputs.length) ∧
    (∀ inp rest m, inp.stopAtHead = false → inp.stopDuringWait = false →
      inp.ev = .raised m →
      runAcqLoop (inp :: rest) tbl =
        ⟨(runAcqLoop rest tbl).tbl,
         .criticalLog m :: .cooldownWait 5 :: (runAcqLoop rest tbl).acts,
         (runAcqLoop rest tbl).iters + 1⟩) ∧
    (∀ inp rest, inp.stopAtHead = true → runAcqLoop (inp :: rest) tbl = ⟨tbl, [], 0⟩) := by
  refine ⟨runAcqLoop_iters_noStop inputs tbl, ?_, ?_⟩
  · intro inp rest m h1 h2 hev
    simp [runAcqLoop, h1, h2, hev]
  · intro inp rest h1
    simp [runAcqLoop, h1]

/-- C5 witness: a trace whose first iteration raises still enters every
iteration. -/
theorem C5_loopNeverDies_witness :
    (runAcqLoop wLoopInputs []).iters = wLoopInputs.length :=
  (C5_loopNeverDies wLoopInputs []).1 (by decide)

/-- C6: inserting a payload whose `ts_utc` equals that of a stored row
leaves the table unchanged — the duplicate is ignored, the first-written
row survives as the only row with that timestamp, and no error is
raised. -/
theorem C6_duplicateInsert (tbl : List SqlRow) (data : Payload) (r0 : SqlRow) (t : PVal)
    (hUnique : tbl.Pairwise (fun a b => rowTs a ≠ rowTs b))
    (hMem : r0 ∈ tbl) (hr0 : rowTs r0 = some t)
    (hts : lookupKey data "ts_utc" = some (some t)) :
    insert_sample false tbl data = tbl ∧
    tbl.filter (fun r => rowTs r = some t) = [r0] := by
  have hsql : ∃ rest, sqlData data = ("ts_utc", t) :: rest := by
    simp only [sqlData, VALID_SAMPLE_COLUMNS, List.filterMap_cons, hts]
    exact ⟨_, rfl⟩
  obtain ⟨rest, hsql⟩ := hsql
  have hrowts : rowTs (("ts_utc", t) :: rest) = some t := by
    simp [rowTs, rowVal, List.find?]
  have hany : tbl.any (fun r => rowTs r = rowTs (("ts_utc", t) :: rest)) = true := by
    apply List.any_eq_true.mpr
    exact ⟨r0, hMem, by simp [hr0, hrowts]⟩
  refine ⟨?_, filter_rowTs_unique tbl r0 t hUnique hMem hr0⟩
  simp [insert_sample, hsql, insertOrIgnoreRow, hany, List.find?]

/-- C6 witness: re-inserting timestamp 50 with different values leaves
the one-row table intact. -/
theorem C6_duplicateInsert_witness :
    insert_sample false wTbl wDupPayload = wTbl ∧
    wTbl.filter (fun r => rowTs r = some (.i 50)) = [wRow] :=
  C6_duplicateInsert wTbl wDupPayload wRow (.i 50)
    (List.pairwise_singleton _ _) (List.mem_singleton.mpr rfl) (by decide) (by decide)

/-- C7: the insert primitive writes only allow-listed columns that are
present and non-null in the payload, and all of those: the row written
for a conflict-free payload with a `ts_utc` is exactly the filtered
row, so unknown fields are ignored while the payload itself is still
inserted, not rejected; a payload without `ts_utc` leaves the table
unchanged, as does a failing write (rollback) — and the function
returns in every case rather than raising. -/
theorem C7_allowListInsert (tbl : List SqlRow) (data : Payload) (dbFail : Bool) :
    (∀ k v, (k, v) ∈ sqlData data →
      k ∈ VALID_SAMPLE_COLUMNS ∧ lookupKey data k = some (some v)) ∧
    (∀ k v, k ∈ VALID_SAMPLE_COLUMNS → lookupKey data k = some (some v) →
      (k, v) ∈ sqlData data) ∧
    (∀ t, lookupKey data "ts_utc" = some (some t) →
      tbl.any (fun r => rowTs r = rowTs (sqlData data)) = false →
      insert_sample false tbl data = tbl ++ [sqlData data]) ∧
    (lookupKey data "ts_utc" = none → insert_sample dbFail tbl data = tbl) ∧
    insert_sample true tbl data = tbl ∧
    (∀ r ∈ insert_sample dbFail tbl data, r ∈ tbl ∨ r = sqlData data) := by
  have hAllow : ∀ k v, (k, v) ∈ sqlData data →
      k ∈ VALID_SAMPLE_COLUMNS ∧ lookupKey data k = some (some v) := by
    intro k v hkv
    obtain ⟨a, haV, hfa⟩ := List.mem_filterMap.mp hkv
    rcases hlk : lookupKey data a with _ | ov
    · rw [hlk] at hfa; cases hfa
    · rcases ov with _ | v2
      · rw [hlk] at hfa; cases hfa
      · rw [hlk] at hfa
        simp only [Option.some.injEq, Prod.mk.injEq] at hfa
        obtain ⟨hak, hv⟩ := hfa
        subst hak
        subst hv
        exact ⟨haV, hlk⟩
  refine ⟨hAllow, ?_, ?_, ?_, ?_, ?_⟩
  · intro k v hkV hlk
    exact List.mem_filterMap.mpr ⟨k, hkV, by rw [hlk]⟩
  · intro t hts hnoconf
    have hsql : ∃ rest, sqlData data = ("ts_utc", t) :: rest := by
      simp only [sqlData, VALID_SAMPLE_COLUMNS, List.filterMap_cons, hts]
      exact ⟨_, rfl⟩
    obtain ⟨rest, hsql⟩ := hsql
    have hfind : ((sqlData data).find? (fun kv => kv.1 = "ts_utc")).isNone = false := by
      rw [hsql]
      simp [List.find?]
    simp [insert_sample, hfind, insertOrIgnoreRow, hnoconf]
  · intro hno
    have hfind : ((sqlData data).find? (fun kv => kv.1 = "ts_utc")) = none := by
      apply List.find?_eq_none.mpr
      rintro ⟨k, v⟩ hkv
      simp only [decide_eq_true_eq]
      intro hkeq
      have h1 := (hAllow k v hkv).2
      rw [hkeq] at h1
      rw [hno] at h1
      cases h1
    simp [insert_sample, hfind]
  · simp [insert_sample]
  · intro r hr
    by_cases hfind : ((sqlData data).find? (fun kv => kv.1 = "ts_utc")).isNone = true
    · left; simpa [insert_sample, hfind] using hr
    · by_cases hdb : dbFail = true
      · left; simpa [insert_sample, hfind, hdb] using hr
      · have hdb' : dbFail = false := by simpa using hdb
        by_cases hany : (tbl.any (fun r2 => rowTs r2 = rowTs (sqlData data))) = true
        · left
          simpa [insert_sample, insertOrIgnoreRow, hfind, hdb', hany] using hr
        · have hr' : r ∈ tbl ++ [sqlData data] := by
            simpa [insert_sample, insertOrIgnoreRow, hfind, hdb', hany] using hr
          rcases List.mem_append.mp hr' with h | h
          · exact Or.inl h
          · right; simpa using h

/-- C7 witness: inserting the junk-bearing payload into an empty table
really writes one row, holding exactly the recognized columns with the
`junk` field dropped; a failing write rolls back; and any row of a
successful insert is an old row or the filtered row. -/
theorem C7_allowListInsert_witness :
    insert_sample false [] wDupPayload = [[("ts_utc", .i 50), ("lat", .r 9)]] ∧
    insert_sample true wTbl wDupPayload = wTbl ∧
    (∀ r ∈ insert_sample false wTbl wDupPayload, r ∈ wTbl ∨ r = sqlData wDupPayload) := by
  refine ⟨?_, (C7_allowListInsert wTbl wDupPayload true).2.2.2.2.1,
    (C7_allowListInsert wTbl wDupPayload false).2.2.2.2.2⟩
  have h := (C7_allowListInsert [] wDupPayload false).2.2.1 (.i 50) (by decide) (by decide)
  rw [h]
  decide

/-- C8: the reader's single-read returns `None` on timeout, serial
fault, non-RMC sentence, parse failure, or a non-active status flag, and
returns a fix exactly for an RMC sentence with the active flag `"A"`,
with the fix fields taken from the sentence; no parse error escapes. -/
theorem C8_readOne (ev : ReadEvent) (fx : Fix) :
    (GpsSerialSensor.read .emptyLine = none ∧
     GpsSerialSensor.read .serialFault = none ∧
     GpsSerialSensor.read (.line .failed) = none ∧
     GpsSerialSensor.read (.line .other) = none ∧
     (∀ st lat lon spd crs, st ≠ "A" →
        GpsSerialSensor.read (.line (.rmc st lat lon spd crs)) = none)) ∧
    (GpsSerialSensor.read ev = some fx ↔
      ev = .line (.rmc "A" fx.lat fx.lon fx.speed_kn fx.course_deg)) := by
  refine ⟨⟨rfl, rfl, rfl, rfl, ?_⟩, ?_, ?_⟩
  · intro st lat lon spd crs hst
    simp [GpsSerialSensor.read, hst]
  · intro h
    cases ev with
    | emptyLine => cases h
    | serialFault => cases h
    | line msg =>
      cases msg with
      | failed => cases h
      | other => cases h
      | rmc st lat lon spd crs =>
        by_cases hst : st = "A"
        · subst hst
          have h' : some (Fix.mk lat lon spd crs) = some fx := h
          injection h' with h2
          subst h2
          rfl
        · simp [GpsSerialSensor.read, hst] at h
  · intro h
    subst h
    simp [GpsSerialSensor.read]

/-- C8 witness: an active RMC line yields its fix; a void RMC line
yields nothing. -/
theorem C8_readOne_witness :
    GpsSerialSensor.read (.line (.rmc "A" (some 1) (some 2) (some 3) (some 4))) =
      some ⟨some 1, some 2, some 3, some 4⟩ ∧
    GpsSerialSensor.read (.line (.rmc "V" (some 1) (some 2) (some 3) (some 4))) = none := by
  constructor
  · exact (C8_readOne (.line (.rmc "A" (some 1) (some 2) (some 3) (some 4)))
      ⟨some 1, some 2, some 3, some 4⟩).2.mpr rfl
  · exact (C8_readOne .emptyLine ⟨none, none, none, none⟩).1.2.2.2.2
      "V" (some 1) (some 2) (some 3) (some 4) (by decide)

/-- C9: on a triggered transition the new entry takes its position from
the most recent sample with both coordinates non-null and its timestamp
from the tick time; and when no positioned sample exists anywhere in the
table, the transition is skipped with no entry created. -/
theorem C9_transitionPosition (cfg : Config) (now : Int)
    (samples : List Sample) (entries : List Entry) (e : Entry) (avg : ℚ)
    (hE : lastEntryRow entries = some e)
    (hA : avgSpeedSince samples (now - cfg.ANCHOR_MINUTES * 60) = some avg)
    (hTrig : (e.status = STATUS_UNDERWAY ∧ avg < cfg.ANCHOR_SPEED_KN) ∨
             (e.status = STATUS_ANCHORED ∧ cfg.ANCHOR_SPEED_KN + 1/2 < avg)) :
    (∀ s, latestPositionedRow samples = some s →
      (run_job noFaults cfg now samples entries =
        entries ++ [{ ts_utc := now, lat := s.lat.getD 0, lon := s.lon.getD 0,
                      status := if e.status = STATUS_UNDERWAY then STATUS_ANCHORED
                                else STATUS_UNDERWAY }]) ∧
      s ∈ samples ∧ hasPosition s = true ∧
      (∀ s2 ∈ samples, hasPosition s2 = true → s2.ts_utc ≤ s.ts_utc)) ∧
    ((∀ s2 ∈ samples, hasPosition s2 = false) →
      run_job noFaults cfg now samples entries = entries) := by
  constructor
  · intro s hS
    have hmem := maxByTs_mem Sample.ts_utc _ s hS
    have hle := maxByTs_le Sample.ts_utc _ s hS
    have hmem' := List.mem_filter.mp hmem
    refine ⟨?_, hmem'.1, hmem'.2,
      fun s2 hs2 hp => hle s2 (List.mem_filter.mpr ⟨hs2, hp⟩)⟩
    rw [run_job_noFaults_some cfg now samples entries e avg hE hA, hS]
    rcases hTrig with ⟨hst, hlt⟩ | ⟨hst, hlt⟩
    · rw [hst]
      simp [hlt, STATUS_UNDERWAY]
    · rw [hst]
      have hlt2 : cfg.ANCHOR_SPEED_KN + 2⁻¹ < avg := by
        rw [show ((2 : ℚ)⁻¹ : ℚ) = 1/2 by norm_num]; exact hlt
      simp [hlt2, STATUS_ANCHORED, STATUS_UNDERWAY]
  · intro hNone
    have hnil : samples.filter hasPosition = [] :=
      List.filter_eq_nil_iff.mpr (fun a ha => by simp [hNone a ha])
    have hLP : latestPositionedRow samples = none := by
      simp [latestPositionedRow, hnil, maxByTs]
    rw [run_job_noFaults_some cfg now samples entries e avg hE hA, hLP]
    rcases hTrig with ⟨hst, hlt⟩ | ⟨hst, hlt⟩
    · rw [hst]; simp [hlt, STATUS_UNDERWAY]
    · rw [hst]
      have hlt2 : cfg.ANCHOR_SPEED_KN + 2⁻¹ < avg := by
        rw [show ((2 : ℚ)⁻¹ : ℚ) = 1/2 by norm_num]; exact hlt
      simp [hlt2, STATUS_ANCHORED, STATUS_UNDERWAY]

/-- C9 witness: the anchored entry created at t=1000 carries the
position (3, 4) of the only positioned sample. -/
theorem C9_transitionPosition_witness :
    run_job noFaults refConfig 1000 wSamples04 wUnderway =
      wUnderway ++ [{ ts_utc := 1000, lat := 3, lon := 4, status := STATUS_ANCHORED }] := by
  have h := ((C9_transitionPosition refConfig 1000 wSamples04 wUnderway
    ⟨100, 1, 2, "underway", none, none, none⟩ (2/5) rfl
    (by simp [avgSpeedSince, wSamples04, refConfig])
    (Or.inl ⟨rfl, by norm_num [refConfig]⟩)).1
    ⟨950, some 3, some 4, some (2/5), none, none, none, none⟩ rfl).1
  simpa [STATUS_UNDERWAY] using h

end HarborPi
